import Mathlib

/-!
# Verification of the Bookkeeping expense app (src/app.py)

Shallow embedding of the Flask + MongoDB bookkeeping application.  The
embedding follows `src/app.py`:

* Expense documents (`Rec`) mirror the Mongo documents built by the
  `add` / `edit` routes.  `datetime` values are modelled as UTC
  timestamps in whole seconds (`Int`); a calendar date parsed by
  `_parse_date` from a `YYYY-MM-DD` string is midnight UTC of that day,
  i.e. `dayNumber * day` with `day = 86400`.  Query parameters `start`
  and `end` are therefore carried as parsed day numbers (`Option Int`,
  `none` for a blank field; a malformed date string makes `_parse_date`
  raise before any of the routes produce output, so such requests are
  outside the model).
* `amount` values are Python floats.  They are modelled exactly by
  `PyVal`: a finite value is kept as the exact rational of its decimal
  literal (binary rounding of IEEE doubles is idealised away; no claim
  here depends on it), and the non-finite floats `nan`, `inf`, `-inf`
  are explicit constructors, since Python's `float()` accepts them.
* MongoDB and GridFS are external collaborators; the queries handed to
  them are interpreted by executable functions.  `$regex` with option
  `"i"` is modelled for patterns made of literal characters and `.`
  (the fragment relevant to the claims): `.` matches any character
  except a newline, other characters match case-insensitively.
  `find(...).sort("date", DESCENDING)` and the `$sort` stage are
  modelled as a stable sort (the engine's tie order is unspecified;
  stability, i.e. keeping the stored order among ties, is the model's
  deterministic choice — the code supplies no tie-break key).
  `$group` is modelled as producing one group per distinct key in
  first-encounter order.  A field set to `null` by `$set`
  (`receipt_id = None`) is modelled as `none`, since every reader in
  the app (`_serialize_expense`, the CSV export) checks it for
  falsiness only.
-/

namespace Bookkeeping

/-- Decidable equality of `Except` results (route outcomes). -/
instance {ε α : Type} [DecidableEq ε] [DecidableEq α] : DecidableEq (Except ε α)
  | .ok x, .ok y =>
    if h : x = y then isTrue (by rw [h]) else isFalse (fun hc => h (Except.ok.inj hc))
  | .ok _, .error _ => isFalse (fun hc => Except.noConfusion hc)
  | .error _, .ok _ => isFalse (fun hc => Except.noConfusion hc)
  | .error e, .error e1 =>
    if h : e = e1 then isTrue (by rw [h]) else isFalse (fun hc => h (Except.error.inj hc))

/-- One day in seconds; `timedelta(days=1)` in `src/app.py`. -/
def day : Int := 86400

/-- A Python float value: exact finite rational, or one of the
non-finite floats that `float()` also produces. -/
inductive PyVal where
  | num (q : ℚ)
  | nan
  | inf
  | ninf
deriving Repr, DecidableEq

/-- IEEE addition on `PyVal` (used by Mongo's `$sum`): `nan` absorbs,
`inf + -inf = nan`, infinities absorb finite values. -/
def pyAdd : PyVal → PyVal → PyVal
  | .nan, _ => .nan
  | _, .nan => .nan
  | .inf, .ninf => .nan
  | .ninf, .inf => .nan
  | .inf, _ => .inf
  | _, .inf => .inf
  | .ninf, _ => .ninf
  | _, .ninf => .ninf
  | .num a, .num b => .num (a + b)

/-- MongoDB's total order on doubles as used by `$sort`: `NaN` sorts
below every number, `-inf` below finite values, `inf` above. -/
def pyValLe : PyVal → PyVal → Bool
  | .nan, _ => true
  | _, .nan => false
  | .ninf, _ => true
  | _, .ninf => false
  | .num a, .num b => decide (a ≤ b)
  | .num _, .inf => true
  | .inf, .num _ => false
  | .inf, .inf => true

/-! ## Python `float()` parsing (`float(amount)` in `add` / `edit`) -/

/-- ASCII digit test. -/
def isDigitC (c : Char) : Bool := '0' ≤ c && c ≤ '9'

/-- Python whitespace stripped by `str.strip()` and by `float()`. -/
def isSpaceC (c : Char) : Bool :=
  c = ' ' || c = '\t' || c = '\n' || c = '\r' || c = '\x0b' || c = '\x0c'

/-- `str.strip()`: drop whitespace from both ends. -/
def pyStrip (s : String) : String :=
  String.mk (((s.data.dropWhile isSpaceC).reverse.dropWhile isSpaceC).reverse)

/-- Validity of a digit run in Python's `float()` grammar
(`digit (["_"] digit)*`): nonempty, starts and ends with a digit, and
no two adjacent underscores.  `needDigit` is `true` at the start and
right after an underscore. -/
def digitRunOk : Bool → List Char → Bool
  | needDigit, [] => !needDigit
  | needDigit, c :: cs =>
    if c = '_' then !needDigit && digitRunOk true cs
    else isDigitC c && digitRunOk false cs

/-- Parse a `digitpart` of the `float()` grammar: returns the value,
the number of digits, and the unconsumed rest; `none` when no valid
digit run starts here. -/
def digitpart (cs : List Char) : Option (Nat × Nat × List Char) :=
  let run := cs.takeWhile (fun c => isDigitC c || c = '_')
  let rest := cs.dropWhile (fun c => isDigitC c || c = '_')
  if digitRunOk true run then
    let ds := run.filter isDigitC
    some (ds.foldl (fun a c => a * 10 + (c.toNat - 48)) 0, ds.length, rest)
  else none

/-- `10 ^ n` as a rational. -/
def pow10 : Nat → ℚ
  | 0 => 1
  | n + 1 => 10 * pow10 n

/-- Parse the optional exponent of the `float()` grammar.  Returns the
exponent (0 when no `e`/`E` is present, consuming nothing) and the
rest; `none` when an `e`/`E` is present but malformed. -/
def parseExp (cs : List Char) : Option (Int × List Char) :=
  match cs with
  | c :: cs1 =>
    if c = 'e' || c = 'E' then
      let (neg, cs2) : Bool × List Char :=
        match cs1 with
        | '+' :: t => (false, t)
        | '-' :: t => (true, t)
        | t => (false, t)
      match digitpart cs2 with
      | some (v, _, rest) => some ((if neg then -(v : Int) else (v : Int)), rest)
      | none => none
    else some (0, c :: cs1)
  | [] => some (0, [])

/-- Apply a decimal exponent to a rational mantissa. -/
def applyExp (m : ℚ) (ex : Int) : ℚ :=
  if 0 ≤ ex then m * pow10 ex.toNat else m / pow10 (-ex).toNat

/-- Parse an unsigned decimal of the `float()` grammar
(`digitpart ["." [digitpart]] ["e" …]` or `"." digitpart ["e" …]`);
the whole input must be consumed. -/
def parseDecimal (cs : List Char) : Option ℚ :=
  match digitpart cs with
  | some (ip, _, rest) =>
    match rest with
    | '.' :: r2 =>
      match digitpart r2 with
      | some (fp, fn, r3) =>
        match parseExp r3 with
        | some (ex, r4) =>
          if r4 = [] then some (applyExp ((ip : ℚ) + (fp : ℚ) / pow10 fn) ex) else none
        | none => none
      | none =>
        match parseExp r2 with
        | some (ex, r4) => if r4 = [] then some (applyExp (ip : ℚ) ex) else none
        | none => none
    | _ =>
      match parseExp rest with
      | some (ex, r4) => if r4 = [] then some (applyExp (ip : ℚ) ex) else none
      | none => none
  | none =>
    match cs with
    | '.' :: r2 =>
      match digitpart r2 with
      | some (fp, fn, r3) =>
        match parseExp r3 with
        | some (ex, r4) =>
          if r4 = [] then some (applyExp ((fp : ℚ) / pow10 fn) ex) else none
        | none => none
      | none => none
    | _ => none

/-- Python's `float(s)`: strips whitespace, takes an optional sign,
then either (case-insensitively) `inf`/`infinity`/`nan` or a finite
decimal.  `none` models the `ValueError` raised on invalid input. -/
def pyFloat? (s : String) : Option PyVal :=
  let t := pyStrip s
  let (neg, cs) : Bool × List Char :=
    match t.data with
    | '+' :: r => (false, r)
    | '-' :: r => (true, r)
    | r => (false, r)
  let low := String.mk (cs.map Char.toLower)
  if low = "inf" || low = "infinity" then some (if neg then .ninf else .inf)
  else if low = "nan" then some .nan
  else
    match parseDecimal cs with
    | some q => some (.num (if neg then -q else q))
    | none => none

/-! ## Expense records -/

/-- An expense document as stored in the `expenses` collection.
`category` is `Option String`: `none` models a document without the
field (distinct, for `$group`, from the empty string the add/edit
routes store).  `receipt_id` is `none` when no receipt is attached (or
the field was `$set` to `null`). -/
structure Rec where
  id : Nat
  date : Int
  vendor : String
  category : Option String
  amount : PyVal
  notes : String
  receipt_id : Option Nat
  created_at : Int
  updated_at : Int
deriving Repr, DecidableEq

/-- Mongo's `$sum` over the `amount` field of a list of documents
(initial value 0, IEEE addition left to right). -/
def sumAmounts (rs : List Rec) : PyVal :=
  rs.foldl (fun acc r => pyAdd acc r.amount) (.num 0)

/-! ## Stable sort (model of `find(...).sort(...)` and `$sort`) -/

/-- Insert `x` into a `le`-sorted list, after every element `y` with
`le y x` — so equal keys keep their existing relative order. -/
def insSorted (le : α → α → Bool) (x : α) : List α → List α
  | [] => [x]
  | y :: ys => if le y x then y :: insSorted le x ys else x :: y :: ys

/-- Stable sort by `le`: elements are inserted left to right, each after
all earlier elements with an equal key. -/
def stableSortBy (le : α → α → Bool) (l : List α) : List α :=
  l.foldl (fun acc x => insSorted le x acc) []

/-! ## The `$regex` search condition -/

/-- Case-insensitive character equality. -/
def ciCharEq (a b : Char) : Bool := a.toLower = b.toLower

/-- One regex token against one character: `.` matches anything but a
newline, any other pattern character matches case-insensitively
(option `"i"`). -/
def reTokMatches (p c : Char) : Bool :=
  if p = '.' then c ≠ '\n' else ciCharEq p c

/-- Does the pattern match a prefix of the text? -/
def rePrefixL : List Char → List Char → Bool
  | [], _ => true
  | _ :: _, [] => false
  | p :: ps, c :: cs => reTokMatches p c && rePrefixL ps cs

/-- Does the pattern match anywhere in the text?  This is Mongo's
unanchored `$regex` for patterns built from literals and `.`. -/
def reFindL (pat : List Char) : List Char → Bool
  | [] => rePrefixL pat []
  | c :: cs => rePrefixL pat (c :: cs) || reFindL pat cs

/-- `{"field": {"$regex": pat, "$options": "i"}}` on a string field. -/
def regexFind (pat hay : String) : Bool := reFindL pat.data hay.data

/-! ## The filter query (`/expenses` and `/export.csv`) -/

/-- The query parameters of the list view and the export, after
`request.args.get(..) or ""` and `_parse_date`: `start`/`stop` are the
parsed day numbers of the `start`/`end` fields (`none` when blank). -/
structure Params where
  start : Option Int
  stop : Option Int
  category : String
  search : String
deriving Repr, DecidableEq

/-- The Mongo query dict `q` built by both routes: an optional exact
`category`, optional `$gte`/`$lt` bounds on `date`, and an optional
`$or` regex search over `vendor` and `notes`. -/
structure Query where
  category : Option String
  dateGte : Option Int
  dateLt : Option Int
  search : Option String
deriving Repr, DecidableEq

/-- The query `q` built in the `expenses` route (src/app.py lines
201–218): category only when nonempty, `date.$gte = start_dt`,
`date.$lt = end_dt + timedelta(days=1)`, search only when nonempty. -/
def expensesQuery (p : Params) : Query :=
  { category := if p.category = "" then none else some p.category
    dateGte := p.start.map (fun s => s * day)
    dateLt := p.stop.map (fun e => e * day + day)
    search := if p.search = "" then none else some p.search }

/-- The query `q` built in the `export_csv` route (src/app.py lines
389–406); the code is a verbatim copy of the `expenses` route's. -/
def exportQuery (p : Params) : Query :=
  { category := if p.category = "" then none else some p.category
    dateGte := p.start.map (fun s => s * day)
    dateLt := p.stop.map (fun e => e * day + day)
    search := if p.search = "" then none else some p.search }

/-- Evaluation of the query dict on one document (MongoDB's `find` /
`$match` semantics): all present conditions must hold; the `$or`
clause holds when either regex matches. -/
def matchesQuery (q : Query) (r : Rec) : Bool :=
  (match q.category with
   | none => true
   | some c => decide (r.category = some c))
  && (match q.dateGte with
      | none => true
      | some g => decide (g ≤ r.date))
  && (match q.dateLt with
      | none => true
      | some l => decide (r.date < l))
  && (match q.search with
      | none => true
      | some s => regexFind s r.vendor || regexFind s r.notes)

/-- Sort key of `find(q).sort("date", DESCENDING)`: date descending,
no tie-break. -/
def dateDescLe (a b : Rec) : Bool := decide (b.date ≤ a.date)

/-- The records matched by the list view's filter, i.e. the documents
the aggregate `$match` stage sums (src/app.py lines 224–227). -/
def totalScope (p : Params) (records : List Rec) : List Rec :=
  records.filter (matchesQuery (expensesQuery p))

/-- The rows rendered by the `/expenses` list view:
`find(q).sort("date", DESCENDING)` (src/app.py lines 220–221). -/
def listRecords (p : Params) (records : List Rec) : List Rec :=
  stableSortBy dateDescLe (records.filter (matchesQuery (expensesQuery p)))

/-- The filtered-total aggregation for an arbitrary query: `$match q`
then `$group {_id: None, sum: {$sum: "$amount"}}`; the route reads the
single group's sum, or 0.0 when the pipeline returned no group
(src/app.py lines 224–228). -/
def mongoTotal (q : Query) (records : List Rec) : PyVal :=
  let matched := records.filter (matchesQuery q)
  if matched.isEmpty then .num 0 else sumAmounts matched

/-- `filtered_total` shown by the list view. -/
def filteredTotal (p : Params) (records : List Rec) : PyVal :=
  mongoTotal (expensesQuery p) records

/-- The records the CSV export iterates over:
`find(q).sort("date", DESCENDING)` (src/app.py line 408). -/
def exportRecords (p : Params) (records : List Rec) : List Rec :=
  stableSortBy dateDescLe (records.filter (matchesQuery (exportQuery p)))

/-! ## The dashboard's category aggregation (src/app.py lines 169–174) -/

/-- One step of Mongo's `$group {_id: "$category", sum: {$sum: "$amount"}}`:
fold a document into the group list.  A new key is appended at the end
(groups appear in first-encounter order); an existing key's sum grows
by IEEE addition.  (`$sum` starts from 0; `0 + a = a` for every float
`a`, so the first amount is stored directly.) -/
def addToGroups (gs : List (Option String × PyVal)) (k : Option String) (a : PyVal) :
    List (Option String × PyVal) :=
  match gs with
  | [] => [(k, a)]
  | (k1, s) :: rest => if k1 = k then (k1, pyAdd s a) :: rest else (k1, s) :: addToGroups rest k a

/-- The `$group` stage over all documents.  The group key is the raw
`category` value: a document without the field groups under `none`,
one with `category = ""` under `some ""` — two distinct groups. -/
def groupPairs (rs : List Rec) : List (Option String × PyVal) :=
  rs.foldl (fun gs r => addToGroups gs r.category r.amount) []

/-- Sort key of the `$sort {"sum": -1}` stage: sum descending, no
tie-break. -/
def sumDescLe (a b : Option String × PyVal) : Bool := pyValLe b.2 a.2

/-- The groups after `$sort {"sum": -1}` (stable; ties keep the
`$group` output order). -/
def sortedGroups (rs : List Rec) : List (Option String × PyVal) :=
  stableSortBy sumDescLe (groupPairs rs)

/-- The display label: `x["_id"] or "Uncategorized"` — both the missing
key (`None`) and the empty string are falsy and relabelled. -/
def labelOf : Option String → String
  | none => "Uncategorized"
  | some s => if s = "" then "Uncategorized" else s

/-- `top_categories` of the dashboard: the `$limit 5` prefix of the
sorted groups, relabelled. -/
def top_categories (rs : List Rec) : List (String × PyVal) :=
  ((sortedGroups rs).take 5).map (fun g => (labelOf g.1, g.2))

/-- First-match association lookup on the group list (used to state
what sum each group key carries). -/
def lookupSum (gs : List (Option String × PyVal)) (k : Option String) : Option PyVal :=
  match gs with
  | [] => none
  | (k1, s) :: rest => if k1 = k then some s else lookupSum rest k

/-! ## CSV export formatting (src/app.py lines 410–426) -/

/-- Two-digit zero padding. -/
def pad2 (n : Nat) : String := if n < 10 then "0" ++ toString n else toString n

/-- Left-pad with zeros to width `w`. -/
def padZeros (w : Nat) (s : String) : String :=
  if w ≤ s.length then s else String.mk (List.replicate (w - s.length) '0') ++ s

/-- Gregorian calendar date of a day number (days since 1970-01-01,
Howard Hinnant's `civil_from_days`; `/` on `Int` floors for the
positive divisors used here). -/
def civilFromDays (z0 : Int) : Int × Int × Int :=
  let z := z0 + 719468
  let era := z / 146097
  let doe := z - era * 146097
  let yoe := (doe - doe / 1460 + doe / 36524 - doe / 146096) / 365
  let y := yoe + era * 400
  let doy := doe - (365 * yoe + yoe / 4 - yoe / 100)
  let mp := (5 * doy + 2) / 153
  let d := doy - (153 * mp + 2) / 5 + 1
  let m := mp + (if mp < 10 then 3 else -9)
  (if m ≤ 2 then y + 1 else y, m, d)

/-- `strftime("%Y-%m-%d")` of a UTC timestamp. -/
def fmtDate (t : Int) : String :=
  let (y, m, d) := civilFromDays (t.fdiv day)
  (if y < 0 then "-" ++ padZeros 4 (toString (-y).toNat) else padZeros 4 (toString y.toNat))
    ++ "-" ++ pad2 m.toNat ++ "-" ++ pad2 d.toNat

/-- The `HH:MM:SS` part of a UTC timestamp. -/
def fmtTimeOfDay (t : Int) : String :=
  let s := (t - 86400 * (t.fdiv 86400)).toNat
  pad2 (s / 3600) ++ ":" ++ pad2 ((s % 3600) / 60) ++ ":" ++ pad2 (s % 60)

/-- `datetime.isoformat()` for a whole-second UTC timestamp:
`YYYY-MM-DDTHH:MM:SS+00:00` (microseconds are omitted when zero). -/
def fmtIso (t : Int) : String := fmtDate t ++ "T" ++ fmtTimeOfDay t ++ "+00:00"

/-- Round to the nearest integer, ties to even (the rounding of
Python's `format(x, ".2f")`, idealised to exact decimal values). -/
def halfEvenRound (x : ℚ) : Int :=
  let f := Rat.floor x
  let r := x - (f : ℚ)
  if r < 1 / 2 then f else if 1 / 2 < r then f + 1 else if f % 2 = 0 then f else f + 1

/-- `f"{x:.2f}"` for a finite value: sign, integer part, and exactly
two fractional digits. -/
def fmt2 (q : ℚ) : String :=
  let a := if q < 0 then -q else q
  let n := (halfEvenRound (a * 100)).toNat
  (if q < 0 then "-" else "") ++ toString (n / 100) ++ "." ++ pad2 (n % 100)

/-- One character of `notes.replace("\n", " ").replace(",", " ")`
(single-character replacement acts characterwise). -/
def cleanChar (c : Char) : Char := if c = '\n' then ' ' else if c = ',' then ' ' else c

/-- The notes field of a CSV body row. -/
def cleanNotes (s : String) : String := String.mk (s.data.map cleanChar)

/-- The amount field: `f'{d.get("amount", 0):.2f}'`; Python formats the
non-finite floats as `nan`, `inf`, `-inf`. -/
def amountField : PyVal → String
  | .num q => fmt2 q
  | .nan => "nan"
  | .inf => "inf"
  | .ninf => "-inf"

/-- The fields of one CSV body row, in the order of the `row` list in
`export_csv.generate` (src/app.py lines 416–425): the record id first,
then date, vendor, category, amount, cleaned notes, the receipt id or
the empty string, and `created_at.isoformat()`.  (`str(ObjectId)` is
modelled as the decimal rendering of the opaque id.) -/
def csvFields (r : Rec) : List String :=
  [toString r.id, fmtDate r.date, r.vendor, r.category.getD "", amountField r.amount,
   cleanNotes r.notes,
   (match r.receipt_id with | some i => toString i | none => ""),
   fmtIso r.created_at]

/-- One CSV body row: the fields joined by commas, newline-terminated. -/
def csvRow (r : Rec) : String := String.intercalate "," (csvFields r) ++ "\n"

/-- The header row yielded first by `export_csv.generate`
(src/app.py line 411). -/
def csvHeader : String := "id,date,vendor,category,amount,notes,receipt_id,created_at\n"

/-- The body rows of the export, in cursor order. -/
def exportBody (p : Params) (records : List Rec) : List String :=
  (exportRecords p records).map csvRow

/-- Everything `generate()` yields: header, then body rows. -/
def exportLines (p : Params) (records : List Rec) : List String :=
  csvHeader :: exportBody p records

/-! ## Receipt uploads and the add/edit routes -/

/-- GridFS, reduced to what the claims need: the set of stored object
ids and a fresh-id counter. -/
structure ReceiptStore where
  nextId : Nat
  stored : List Nat
deriving Repr, DecidableEq

/-- An uploaded file (only the filename matters to the claims). -/
structure Upload where
  filename : String
deriving Repr, DecidableEq

/-- `filename.rsplit(".", 1)[1].lower()`: the text after the last dot,
lowercased. -/
def extOf (filename : String) : String :=
  String.mk ((filename.data.reverse.takeWhile (fun c => c ≠ '.')).reverse.map Char.toLower)

/-- `allowed_file` (src/app.py lines 59–60): has a dot and the
extension is in `ALLOWED_EXT = {png, jpg, jpeg, pdf}`. -/
def allowed_file (filename : String) : Bool :=
  filename.data.contains '.' &&
    (extOf filename = "png" || extOf filename = "jpg"
      || extOf filename = "jpeg" || extOf filename = "pdf")

/-- `_save_receipt` (src/app.py lines 91–104): returns `none` without
touching GridFS when there is no file, the filename is empty, or the
extension is not allowed; otherwise `fs.put` stores the object and the
new id is returned. -/
def _save_receipt (rs : ReceiptStore) (f : Option Upload) : Option Nat × ReceiptStore :=
  match f with
  | none => (none, rs)
  | some u =>
    if u.filename = "" then (none, rs)
    else if allowed_file u.filename then
      (some rs.nextId, ⟨rs.nextId + 1, rs.stored ++ [rs.nextId]⟩)
    else (none, rs)

/-- `_delete_receipt` (src/app.py lines 106–112): best-effort delete,
a no-op for `None`; a failing `fs.delete` is swallowed (the model's
delete always succeeds). -/
def _delete_receipt (rs : ReceiptStore) (rid : Option Nat) : ReceiptStore :=
  match rid with
  | none => rs
  | some i => { rs with stored := rs.stored.erase i }

/-- The application state the routes act on: the `expenses` collection
(in insertion order), GridFS, and the ObjectId generator. -/
structure AppState where
  expenses : List Rec
  receipts : ReceiptStore
  nextOid : Nat
deriving Repr, DecidableEq

/-- The add route rejects only a non-parsing amount
(`float(amount)` raising `ValueError`, flashed as
"Amount must be a number."). -/
inductive AddErr where
  | invalidAmount
deriving Repr, DecidableEq

/-- The POST form of the `add` route.  `date` is the parsed day number
of the date field (`none` when blank); the text fields are the raw
posted strings. -/
structure AddForm where
  date : Option Int
  vendor : String
  category : String
  amount : String
  notes : String
  receipt : Option Upload
deriving Repr, DecidableEq

/-- The POST branch of the `add` route (src/app.py lines 252–285):
strip the text fields, parse the amount (rejecting on `ValueError`
with no write), default a blank date to now, store the receipt (if
any) via `_save_receipt`, and insert the document. -/
def add (st : AppState) (now : Int) (f : AddForm) : Except AddErr AppState :=
  let vendor := pyStrip f.vendor
  let category := pyStrip f.category
  let amount := pyStrip f.amount
  let notes := pyStrip f.notes
  match pyFloat? amount with
  | none => .error .invalidAmount
  | some amount_val =>
    let date_dt := match f.date with | some d => d * day | none => now
    let (receipt_oid, rs1) := _save_receipt st.receipts f.receipt
    let doc : Rec :=
      { id := st.nextOid, date := date_dt, vendor := vendor, category := some category,
        amount := amount_val, notes := notes, receipt_id := receipt_oid,
        created_at := now, updated_at := now }
    .ok { expenses := st.expenses ++ [doc], receipts := rs1, nextOid := st.nextOid + 1 }

/-- Failures of the `edit` route: a nonexistent id (404), a non-parsing
amount, and the `TypeError` Python raises when the posted amount is
empty and the stored float amount (truthy, i.e. nonzero) reaches
`.strip()`. -/
inductive EditErr where
  | notFound
  | invalidAmount
  | typeErr
deriving Repr, DecidableEq

/-- The POST form of the `edit` route; fields as in `AddForm`. -/
structure EditForm where
  date : Option Int
  vendor : String
  category : String
  amount : String
  notes : String
  receipt : Option Upload
deriving Repr, DecidableEq

/-- The POST branch of the `edit` route (src/app.py lines 292–334):
look up the document, resolve each text field as
`(form value or stored value or "").strip()`, parse the amount, keep
the stored date when the field is blank, and — when a replacement file
with a nonempty filename was posted — store it via `_save_receipt`,
best-effort delete the old receipt, and `$set` `receipt_id` to the new
id (which is `None`, modelled `none`, when the upload was refused).
All readers treat a `null` `receipt_id` as absent. -/
def edit (st : AppState) (now : Int) (oid : Nat) (f : EditForm) : Except EditErr AppState :=
  match st.expenses.find? (fun r => r.id == oid) with
  | none => .error .notFound
  | some doc =>
    let vendor := pyStrip (if f.vendor = "" then doc.vendor else f.vendor)
    let category := pyStrip (if f.category = "" then doc.category.getD "" else f.category)
    let notes := pyStrip (if f.notes = "" then doc.notes else f.notes)
    let amountStr? : Option String :=
      if f.amount = "" then (if doc.amount = .num 0 then some "" else none)
      else some (pyStrip f.amount)
    match amountStr? with
    | none => .error .typeErr
    | some amountStr =>
      match pyFloat? amountStr with
      | none => .error .invalidAmount
      | some amount_val =>
        let date_dt := match f.date with | some d => d * day | none => doc.date
        let (setReceipt, new_oid, rs1) : Bool × Option Nat × ReceiptStore :=
          match f.receipt with
          | some u =>
            if u.filename = "" then (false, none, st.receipts)
            else
              let (noid, rsA) := _save_receipt st.receipts (some u)
              let rsB := match doc.receipt_id with
                | some old => _delete_receipt rsA (some old)
                | none => rsA
              (true, noid, rsB)
          | none => (false, none, st.receipts)
        let updated : Rec :=
          { doc with
            date := date_dt, vendor := vendor, category := some category,
            amount := amount_val, notes := notes, updated_at := now,
            receipt_id := if setReceipt then new_oid else doc.receipt_id }
        .ok { expenses := st.expenses.map (fun r => if r.id == oid then updated else r),
              receipts := rs1, nextOid := st.nextOid }

/-! ## Spec-side definitions

These follow the specification's words, for comparison with the
definitions above (refinement claims). -/

/-- Case-insensitive: does the pattern, read literally, match a prefix
of the text? -/
def ciPrefixL : List Char → List Char → Bool
  | [], _ => true
  | _ :: _, [] => false
  | p :: ps, c :: cs => ciCharEq p c && ciPrefixL ps cs

/-- Case-insensitive literal substring search. -/
def ciSubstrL (pat : List Char) : List Char → Bool
  | [] => ciPrefixL pat []
  | c :: cs => ciPrefixL pat (c :: cs) || ciSubstrL pat cs

/-- The spec's "contains the text as a case-insensitive substring". -/
def ciContains (pat hay : String) : Bool := ciSubstrL pat.data hay.data

/-- PCRE metacharacters: on search text free of these, a regex match
and a literal substring match coincide. -/
def isRegexMeta (c : Char) : Bool :=
  c = '.' || c = '^' || c = '$' || c = '*' || c = '+' || c = '?' || c = '('
  || c = ')' || c = '[' || c = ']' || c = '\x7b' || c = '\x7d' || c = '|' || c = '\\'

/-- The filter predicate as the spec words it: every supplied condition
must hold; dates inclusive (end of day); exact category match;
search text as a case-insensitive substring of vendor or notes. -/
def specMatchesB (p : Params) (r : Rec) : Bool :=
  (decide (p.category = "") || decide (r.category = some p.category))
  && (match p.start with
      | none => true
      | some s => decide (s * day ≤ r.date))
  && (match p.stop with
      | none => true
      | some e => decide (r.date < e * day + day))
  && (decide (p.search = "") || ciContains p.search r.vendor || ciContains p.search r.notes)

/-- The spec's ordering for `recent` and the export: date descending,
id descending as tie-break. -/
def specRecentLe (a b : Rec) : Bool :=
  decide (b.date < a.date) || (decide (a.date = b.date) && decide (b.id ≤ a.id))

/-- The export row order the spec asserts: the matching set sorted by
date descending, then id descending. -/
def specRecentOrder (rs : List Rec) : List Rec := stableSortBy specRecentLe rs

/-- Sum of a list of float values (0 when empty). -/
def specSum : List PyVal → PyVal
  | [] => .num 0
  | a :: rest => rest.foldl pyAdd a

/-- Lexicographic comparison of character lists. -/
def strLeL : List Char → List Char → Bool
  | [], _ => true
  | _ :: _, [] => false
  | a :: as, b :: bs => if a = b then strLeL as bs else decide (a < b)

/-- Lexicographic string comparison (label ordering). -/
def strLe (a b : String) : Bool := strLeL a.data b.data

/-- The spec's ordering for `group_by_category`: descending sum, ties
broken by category label ascending. -/
def specGroupLe (a b : String × PyVal) : Bool :=
  (pyValLe b.2 a.2 && !(pyValLe a.2 b.2))
  || (pyValLe b.2 a.2 && pyValLe a.2 b.2 && strLe a.1 b.1)

/-- Keep the first occurrence of each string. -/
def dedupKeep (l : List String) : List String :=
  l.foldl (fun acc x => if acc.any (fun y => decide (y = x)) then acc else acc ++ [x]) []

/-- `group_by_category` as the spec words it: one bucket per label
(empty or absent category under the single sentinel label
"Uncategorized"), each with its summed amount, sorted by descending
sum with ties broken by label ascending. -/
def specGroupByCategory (rs : List Rec) : List (String × PyVal) :=
  let labels := dedupKeep (rs.map (fun r => labelOf r.category))
  stableSortBy specGroupLe
    (labels.map (fun l =>
      (l, specSum ((rs.filter (fun r => decide (labelOf r.category = l))).map Rec.amount))))

/-! ## Concrete inputs used by the counterexamples and witnesses -/

/-- A record with vendor `"a"` (C2). -/
def rC2 : Rec := ⟨1, 0, "a", some "", .num 1, "", none, 0, 0⟩

/-- Query parameters whose search text is the regex metacharacter `.`
(C2). -/
def pC2 : Params := ⟨none, none, "", "."⟩

/-- Two records with equal amounts in categories "B" and "A", stored
in this order (C5). -/
def r5B : Rec := ⟨1, 0, "", some "B", .num 10, "", none, 0, 0⟩

/-- See `r5B`. -/
def r5A : Rec := ⟨2, 0, "", some "A", .num 10, "", none, 0, 0⟩

/-- Two records with equal dates and ids 1, 2, stored in this order
(C6). -/
def r6a : Rec := ⟨1, 5, "", some "", .num 1, "", none, 0, 0⟩

/-- See `r6a`. -/
def r6b : Rec := ⟨2, 5, "", some "", .num 2, "", none, 0, 0⟩

/-- Blank query parameters (C6). -/
def p6 : Params := ⟨none, none, "", ""⟩

/-- A record with a finite amount (C7 witness). -/
def r7 : Rec := ⟨3, 0, "V", some "C", .num 5, "n", none, 0, 0⟩

/-- The empty application state (C8). -/
def st8 : AppState := ⟨[], ⟨0, []⟩, 0⟩

/-- An add form whose amount is the string "nan" (C8). -/
def f8nan : AddForm := ⟨some 0, "V", "C", "nan", "", none⟩

/-- An add form whose amount is the string "abc" (C8). -/
def f8abc : AddForm := ⟨some 0, "V", "C", "abc", "", none⟩

/-- The empty application state (C9). -/
def st9 : AppState := ⟨[], ⟨0, []⟩, 0⟩

/-- An add form with a valid amount and a `.exe` receipt upload (C9). -/
def f9 : AddForm := ⟨some 0, "V", "C", "5", "", some ⟨"evil.exe"⟩⟩

/-- A state holding one expense (id 3) whose receipt 7 is stored in
GridFS (C10). -/
def st10 : AppState := ⟨[⟨3, 0, "V", some "C", .num 5, "", some 7, 0, 0⟩], ⟨8, [7]⟩, 4⟩

/-- An edit form replacing the receipt with a `.exe` upload (C10). -/
def f10 : EditForm := ⟨none, "", "", "5", "", some ⟨"bad.exe"⟩⟩

/-- A record dated at the midnight of day 0 (C3 witness). -/
def r3w : Rec := ⟨9, 0, "", some "", .num 1, "", none, 0, 0⟩

/-! ## Lemmas about the stable sort -/

theorem insSorted_perm (le : α → α → Bool) (x : α) (l : List α) :
    (insSorted le x l).Perm (x :: l) := by
  induction l with
  | nil => exact List.Perm.refl _
  | cons y ys ih =>
    unfold insSorted
    by_cases h : le y x = true
    · rw [if_pos h]
      exact (ih.cons y).trans (List.Perm.swap x y ys)
    · rw [if_neg h]

theorem stableSortBy_perm_aux (le : α → α → Bool) (l : List α) :
    ∀ acc : List α, (l.foldl (fun acc x => insSorted le x acc) acc).Perm (acc ++ l) := by
  induction l with
  | nil => intro acc; simp
  | cons x xs ih =>
    intro acc
    simp only [List.foldl_cons]
    refine (ih (insSorted le x acc)).trans ?_
    refine (((insSorted_perm le x acc).append_right xs).trans ?_)
    exact List.perm_middle.symm

theorem stableSortBy_perm (le : α → α → Bool) (l : List α) :
    (stableSortBy le l).Perm l := by
  simpa [stableSortBy] using stableSortBy_perm_aux le l []

theorem mem_stableSortBy (le : α → α → Bool) (l : List α) (a : α) :
    a ∈ stableSortBy le l ↔ a ∈ l :=
  (stableSortBy_perm le l).mem_iff

theorem insSorted_pairwise (le : α → α → Bool)
    (trans : ∀ a b c, le a b = true → le b c = true → le a c = true)
    (total : ∀ a b, le a b || le b a)
    (x : α) (l : List α) (hl : l.Pairwise (fun a b => le a b = true)) :
    (insSorted le x l).Pairwise (fun a b => le a b = true) := by
  induction l with
  | nil => simp [insSorted]
  | cons y ys ih =>
    rw [List.pairwise_cons] at hl
    obtain ⟨hy, hys⟩ := hl
    unfold insSorted
    by_cases h : le y x = true
    · rw [if_pos h, List.pairwise_cons]
      refine ⟨?_, ih hys⟩
      intro z hz
      rcases List.mem_cons.mp ((insSorted_perm le x ys).mem_iff.mp hz) with rfl | hz
      · exact h
      · exact hy z hz
    · rw [if_neg h, List.pairwise_cons]
      have hxy : le x y = true := by
        have ht := total x y
        cases hxy : le x y
        · rw [hxy] at ht
          simp at ht
          exact absurd ht h
        · rfl
      refine ⟨?_, List.pairwise_cons.mpr ⟨hy, hys⟩⟩
      intro z hz
      rcases List.mem_cons.mp hz with rfl | hz
      · exact hxy
      · exact trans x y z hxy (hy z hz)

theorem stableSortBy_pairwise (le : α → α → Bool)
    (trans : ∀ a b c, le a b = true → le b c = true → le a c = true)
    (total : ∀ a b, le a b || le b a)
    (l : List α) :
    (stableSortBy le l).Pairwise (fun a b => le a b = true) := by
  suffices h : ∀ (l acc : List α), acc.Pairwise (fun a b => le a b = true) →
      (l.foldl (fun acc x => insSorted le x acc) acc).Pairwise (fun a b => le a b = true) from
    h l [] (by simp)
  intro l
  induction l with
  | nil => intro acc hacc; exact hacc
  | cons x xs ih =>
    intro acc hacc
    exact ih _ (insSorted_pairwise le trans total x acc hacc)

/-! ## Lemmas about the float order and addition -/

theorem pyValLe_total (a b : PyVal) : pyValLe a b || pyValLe b a := by
  cases a <;> cases b <;> simp [pyValLe, le_total]

theorem pyValLe_trans (a b c : PyVal)
    (h1 : pyValLe a b = true) (h2 : pyValLe b c = true) : pyValLe a c = true := by
  cases a <;> cases b <;> cases c <;> simp_all [pyValLe]
  exact le_trans h1 h2

theorem pyAdd_zero_left (a : PyVal) : pyAdd (.num 0) a = a := by
  cases a <;> simp [pyAdd]

/-! ## Regex matching versus substring matching -/

theorem rePrefixL_eq_ciPrefixL (pat : List Char) (hpat : ∀ c ∈ pat, c ≠ '.') :
    ∀ s, rePrefixL pat s = ciPrefixL pat s := by
  induction pat with
  | nil => intro s; cases s <;> rfl
  | cons p ps ih =>
    intro s
    cases s with
    | nil => rfl
    | cons c cs =>
      have hp : p ≠ '.' := hpat p (List.mem_cons_self p ps)
      have ihs := ih (fun d hd => hpat d (List.mem_cons_of_mem p hd)) cs
      simp [rePrefixL, ciPrefixL, reTokMatches, hp, ihs]

theorem reFindL_eq_ciSubstrL (pat : List Char) (hpat : ∀ c ∈ pat, c ≠ '.') :
    ∀ s, reFindL pat s = ciSubstrL pat s := by
  intro s
  induction s with
  | nil => simpa [reFindL, ciSubstrL] using rePrefixL_eq_ciPrefixL pat hpat []
  | cons c cs ih => simp [reFindL, ciSubstrL, rePrefixL_eq_ciPrefixL pat hpat, ih]

/-! ## Lemmas about the `$group` stage -/

theorem lookupSum_addToGroups_self (gs : List (Option String × PyVal))
    (k : Option String) (a : PyVal) :
    lookupSum (addToGroups gs k a) k =
      some (match lookupSum gs k with | none => a | some s => pyAdd s a) := by
  induction gs with
  | nil => simp [addToGroups, lookupSum]
  | cons p rest ih =>
    obtain ⟨k1, s⟩ := p
    by_cases h : k1 = k <;> simp [addToGroups, lookupSum, h, ih]

theorem lookupSum_addToGroups_other (gs : List (Option String × PyVal))
    (k1 k : Option String) (a : PyVal) (h : k1 ≠ k) :
    lookupSum (addToGroups gs k1 a) k = lookupSum gs k := by
  induction gs with
  | nil => simp [addToGroups, lookupSum, h]
  | cons p rest ih =>
    obtain ⟨k2, s⟩ := p
    by_cases h2 : k2 = k1
    · subst h2
      simp [addToGroups, lookupSum, h]
    · by_cases h3 : k2 = k
      · simp [addToGroups, lookupSum, h2, h3, Ne.symm h]
      · simp [addToGroups, lookupSum, h2, h3, ih]

theorem lookupSum_foldGroups (k : Option String) :
    ∀ (rs : List Rec) (gs : List (Option String × PyVal)),
      lookupSum (rs.foldl (fun gs r => addToGroups gs r.category r.amount) gs) k =
        (match lookupSum gs k with
         | some s =>
            some (((rs.filter (fun r => decide (r.category = k))).map Rec.amount).foldl pyAdd s)
         | none =>
            match (rs.filter (fun r => decide (r.category = k))).map Rec.amount with
            | [] => none
            | a :: rest => some (rest.foldl pyAdd a)) := by
  intro rs
  induction rs with
  | nil =>
    intro gs
    cases h : lookupSum gs k <;> simp [h]
  | cons r rs ih =>
    intro gs
    simp only [List.foldl_cons]
    rw [ih (addToGroups gs r.category r.amount)]
    by_cases hrk : r.category = k
    · rw [hrk, lookupSum_addToGroups_self gs k r.amount]
      cases hg : lookupSum gs k with
      | none =>
        simp [hg, List.filter_cons, hrk]
      | some s =>
        simp [hg, List.filter_cons, hrk]
    · rw [lookupSum_addToGroups_other gs r.category k r.amount hrk]
      cases hg : lookupSum gs k with
      | none => simp [hg, List.filter_cons, hrk]
      | some s => simp [hg, List.filter_cons, hrk]

theorem sumAmounts_cons_foldl (r : Rec) (l : List Rec) :
    sumAmounts (r :: l) = (l.map Rec.amount).foldl pyAdd r.amount := by
  simp [sumAmounts, List.foldl_map, pyAdd_zero_left]

/-- Characterisation of the filter predicate the routes build from the
query parameters. -/
theorem matchesQuery_expensesQuery_iff (p : Params) (r : Rec) :
    matchesQuery (expensesQuery p) r = true ↔
      ((p.category = "" ∨ r.category = some p.category)
      ∧ (∀ s, p.start = some s → s * day ≤ r.date)
      ∧ (∀ e, p.stop = some e → r.date < e * day + day)
      ∧ (p.search = ""
          ∨ regexFind p.search r.vendor = true ∨ regexFind p.search r.notes = true)) := by
  obtain ⟨ps, pe, pc, pq⟩ := p
  by_cases hc : pc = "" <;> cases ps <;> cases pe <;> by_cases hq : pq = "" <;>
    simp [matchesQuery, expensesQuery, hc, hq, and_assoc]

/-! ## The claims -/

/-- C1.  For every set of query parameters, the list view, the
filtered aggregate total, and the CSV export are evaluated against the
same predicate: the list view's rows and the export's body rows are
the same sorted list of records, the records summed by the filtered
total are exactly the records in scope, and the export body is the
row-rendering of the list view's rows. -/
theorem scope_consistency (p : Params) (records : List Rec) :
    expensesQuery p = exportQuery p
    ∧ listRecords p records = exportRecords p records
    ∧ (∀ r : Rec, r ∈ listRecords p records ↔ r ∈ totalScope p records)
    ∧ filteredTotal p records
        = (if (totalScope p records).isEmpty then PyVal.num 0
           else sumAmounts (totalScope p records))
    ∧ exportBody p records = (listRecords p records).map csvRow := by
  refine ⟨rfl, rfl, ?_, rfl, rfl⟩
  intro r
  exact (stableSortBy_perm dateDescLe _).mem_iff

/-- C2, counterexample.  With search text `"."` (a regex
metacharacter), the code's predicate matches a record whose vendor is
`"a"`, while the spec's predicate — vendor or notes containing the
text as a case-insensitive substring — does not. -/
theorem search_regex_counterexample :
    matchesQuery (expensesQuery pC2) rC2 = true
    ∧ specMatchesB pC2 rC2 = false := by decide

/-- C2, amended.  The filter predicate matches if and only if every
supplied condition holds, with the search text interpreted as a
case-insensitive regular expression over vendor and notes; when the
search text contains no regex metacharacter this coincides with the
claimed case-insensitive-substring predicate. -/
theorem filter_predicate_spec (p : Params) (r : Rec)
    (hmeta : ∀ c ∈ p.search.data, isRegexMeta c = false) :
    matchesQuery (expensesQuery p) r = specMatchesB p r := by
  obtain ⟨ps, pe, pc, pq⟩ := p
  have hdot : ∀ c ∈ pq.data, c ≠ '.' := by
    intro c hc heq
    have hm := hmeta c hc
    rw [heq] at hm
    simp [isRegexMeta] at hm
  have hs : ∀ hay : String, regexFind pq hay = ciContains pq hay := fun hay =>
    reFindL_eq_ciSubstrL pq.data hdot hay.data
  by_cases hc : pc = "" <;> cases ps <;> cases pe <;> by_cases hq : pq = "" <;>
    simp [matchesQuery, expensesQuery, specMatchesB, hc, hq, hs]

/-- C2, witness for the amended theorem at search text `"ab"`. -/
theorem filter_predicate_spec_witness :
    matchesQuery (expensesQuery ⟨none, none, "", "ab"⟩) rC2
      = specMatchesB ⟨none, none, "", "ab"⟩ rC2 :=
  filter_predicate_spec ⟨none, none, "", "ab"⟩ rC2 (by decide)

/-- C3.  The date range is inclusive on both ends: a matching record
has `start_day * day ≤ date` when a start date is supplied and
`date < (end_day + 1) * day` (inclusive end of day) when an end date
is supplied; conversely, with no other filters, any record meeting
both bounds matches — in particular a record dated exactly midnight of
the start day or of the end day. -/
theorem date_range_inclusive (p : Params) (r : Rec) :
    ((∀ s, p.start = some s →
        matchesQuery (expensesQuery p) r = true → s * day ≤ r.date)
    ∧ (∀ e, p.stop = some e →
        matchesQuery (expensesQuery p) r = true → r.date < e * day + day))
    ∧ (p.category = "" → p.search = "" →
        (∀ s, p.start = some s → s * day ≤ r.date) →
        (∀ e, p.stop = some e → r.date < e * day + day) →
        matchesQuery (expensesQuery p) r = true)
    ∧ (∀ s e, p = ⟨some s, some e, "", ""⟩ → s ≤ e →
        (r.date = s * day ∨ r.date = e * day) →
        matchesQuery (expensesQuery p) r = true) := by
  refine ⟨⟨?_, ?_⟩, ?_, ?_⟩
  · intro s hs hm
    exact ((matchesQuery_expensesQuery_iff p r).mp hm).2.1 s hs
  · intro e he hm
    exact ((matchesQuery_expensesQuery_iff p r).mp hm).2.2.1 e he
  · intro hc hq h1 h2
    exact (matchesQuery_expensesQuery_iff p r).mpr ⟨Or.inl hc, h1, h2, Or.inl hq⟩
  · intro s e hp hse hd
    subst hp
    refine (matchesQuery_expensesQuery_iff _ r).mpr
      ⟨Or.inl rfl, ?_, ?_, Or.inl rfl⟩
    · intro s1 hs1
      injection hs1 with hs1
      subst hs1
      have hday : day = 86400 := rfl
      rcases hd with hd | hd <;> (rw [hd, hday]; all_goals omega)
    · intro e1 he1
      injection he1 with he1
      subst he1
      have hday : day = 86400 := rfl
      rcases hd with hd | hd <;> (rw [hd, hday]; all_goals omega)

/-- C3, witness: the range day 0 … day 1 includes a record dated at
midnight of day 0. -/
theorem date_range_inclusive_witness :
    matchesQuery (expensesQuery ⟨some 0, some 1, "", ""⟩) r3w = true :=
  (date_range_inclusive ⟨some 0, some 1, "", ""⟩ r3w).2.2 0 1 rfl (by decide)
    (Or.inl (by decide))

/-- C4.  For every query, the filtered total equals the sum of
`amount` over the matching records, and it is 0 when no record
matches. -/
theorem total_eq_sum (q : Query) (records : List Rec) :
    mongoTotal q records = sumAmounts (records.filter (matchesQuery q))
    ∧ (records.filter (matchesQuery q) = [] → mongoTotal q records = PyVal.num 0) := by
  constructor
  · cases hf : records.filter (matchesQuery q) with
    | nil => simp [mongoTotal, hf, sumAmounts]
    | cons a l => simp [mongoTotal, hf]
  · intro h
    simp [mongoTotal, h]

/-- C4, witness: the total of an empty store is 0. -/
theorem total_eq_sum_witness :
    mongoTotal ⟨none, none, none, none⟩ [] = PyVal.num 0 :=
  (total_eq_sum ⟨none, none, none, none⟩ []).2 rfl

/-- C5, counterexample.  Two categories "B" and "A" with equal sums,
stored in that order: the code returns them in `$group` order
(["B", "A"]), not with the tie broken by label ascending (["A", "B"])
as the claim states. -/
theorem group_tie_counterexample :
    top_categories [r5B, r5A] = [("B", PyVal.num 10), ("A", PyVal.num 10)]
    ∧ specGroupByCategory [r5B, r5A] = [("A", PyVal.num 10), ("B", PyVal.num 10)]
    ∧ top_categories [r5B, r5A] ≠ specGroupByCategory [r5B, r5A] := by decide

/-- C5, amended.  The category aggregation maps each raw category key
(an absent category is a separate key from the empty string) to the
sum of `amount` over its records and returns the groups sorted by
descending sum; the order among equal sums is the engine's group
order, with no label tie-break.  The dashboard relabels falsy keys
(absent or empty) of the top five to "Uncategorized" after sorting. -/
theorem group_by_category_sorted (rs : List Rec) :
    (sortedGroups rs).Pairwise (fun a b => pyValLe b.2 a.2 = true)
    ∧ (sortedGroups rs).Perm (groupPairs rs)
    ∧ (∀ k : Option String,
        lookupSum (groupPairs rs) k =
          (if (rs.filter (fun r => decide (r.category = k))).isEmpty then none
           else some (sumAmounts (rs.filter (fun r => decide (r.category = k))))))
    ∧ top_categories rs = ((sortedGroups rs).take 5).map (fun g => (labelOf g.1, g.2))
    ∧ labelOf none = "Uncategorized" ∧ labelOf (some "") = "Uncategorized" := by
  refine ⟨?_, stableSortBy_perm _ _, ?_, rfl, rfl, rfl⟩
  · exact stableSortBy_pairwise sumDescLe
      (fun a b c h1 h2 => pyValLe_trans c.2 b.2 a.2 h2 h1)
      (fun a b => pyValLe_total b.2 a.2)
      (groupPairs rs)
  · intro k
    have h := lookupSum_foldGroups k rs []
    simp only [lookupSum] at h
    rw [groupPairs, h]
    cases hf : rs.filter (fun r => decide (r.category = k)) with
    | nil => simp [hf]
    | cons a l => simp [hf, sumAmounts_cons_foldl]

/-- C6, counterexample.  Two records with equal dates, stored as
ids 1 then 2: the export emits them in storage order, while the
claimed ordering (date descending, id descending) would put id 2
first. -/
theorem export_order_counterexample :
    exportRecords p6 [r6a, r6b] = [r6a, r6b]
    ∧ specRecentOrder ([r6a, r6b].filter (matchesQuery (exportQuery p6))) = [r6b, r6a]
    ∧ exportRecords p6 [r6a, r6b]
        ≠ specRecentOrder ([r6a, r6b].filter (matchesQuery (exportQuery p6))) := by decide

/-- C6, amended.  The CSV export emits the matching records sorted by
date descending only — the code applies no id tie-break, so the order
among equal dates is the engine's storage order — and this is the
same ordering the list view applies. -/
theorem export_order_date_desc (p : Params) (records : List Rec) :
    exportRecords p records = listRecords p records
    ∧ (exportRecords p records).Pairwise (fun a b => b.date ≤ a.date)
    ∧ (exportRecords p records).Perm (records.filter (matchesQuery (exportQuery p))) := by
  refine ⟨rfl, ?_, stableSortBy_perm _ _⟩
  have h := stableSortBy_pairwise dateDescLe
    (fun a b c h1 h2 => by
      simp only [dateDescLe, decide_eq_true_eq] at h1 h2 ⊢
      omega)
    (fun a b => by
      simp only [dateDescLe]
      rcases le_total b.date a.date with h | h <;> simp [h])
    (records.filter (matchesQuery (exportQuery p)))
  exact h.imp (fun hab => of_decide_eq_true hab)

/-- C7, counterexample.  The export's header is
`id,date,vendor,category,amount,notes,receipt_id,created_at` — eight
fields led by the record id, not the seven fields the claim lists —
and an embedded comma in notes is replaced by a space, not removed. -/
theorem csv_header_counterexample :
    csvHeader ≠ "date,vendor,category,amount,notes,receipt_reference,created_at\n"
    ∧ csvHeader ≠ "date, vendor, category, amount, notes, receipt_reference, created_at\n"
    ∧ cleanNotes "a,b" = "a b"
    ∧ cleanNotes "a,b" ≠ "ab" := by decide

/-- Helper for C7: two-digit padding always yields two characters. -/
theorem pad2_length : ∀ m : Nat, m < 100 → (pad2 m).length = 2 := by decide

/-- C7, amended.  Every export begins with the fixed eight-field
header `id,date,vendor,category,amount,notes,receipt_id,created_at`;
a body row has eight fields, its amount field (for a finite amount)
carries exactly two digits after the decimal point, its notes field
has newlines and commas replaced by spaces (so it contains neither),
and its receipt field is the empty string when no receipt is
attached. -/
theorem csv_row_format (r : Rec) (q : ℚ) (h : r.amount = .num q) :
    csvHeader = "id,date,vendor,category,amount,notes,receipt_id,created_at\n"
    ∧ (csvFields r).length = 8
    ∧ (csvFields r)[4]? = some (fmt2 q)
    ∧ fmt2 q = (if q < 0 then "-" else "")
        ++ toString ((halfEvenRound ((if q < 0 then -q else q) * 100)).toNat / 100)
        ++ "." ++ pad2 ((halfEvenRound ((if q < 0 then -q else q) * 100)).toNat % 100)
    ∧ (pad2 ((halfEvenRound ((if q < 0 then -q else q) * 100)).toNat % 100)).length = 2
    ∧ (csvFields r)[5]? = some (cleanNotes r.notes)
    ∧ (∀ c ∈ (cleanNotes r.notes).data, c ≠ ',' ∧ c ≠ '\n')
    ∧ (r.receipt_id = none → (csvFields r)[6]? = some "") := by
  refine ⟨rfl, rfl, ?_, rfl, ?_, ?_, ?_, ?_⟩
  · simp [csvFields, h, amountField]
  · exact pad2_length _ (Nat.mod_lt _ (by norm_num))
  · simp [csvFields]
  · intro c hc
    simp only [cleanNotes] at hc
    rcases List.mem_map.mp hc with ⟨a, _, ha⟩
    subst ha
    unfold cleanChar
    by_cases h1 : a = '\n'
    · simp [h1]
    · by_cases h2 : a = ','
      · simp [h1, h2]
      · simp [h1, h2]
  · intro h6
    simp [csvFields, h6]

/-- C7, witness for the amended theorem at a concrete record. -/
theorem csv_row_format_witness :
    csvHeader = "id,date,vendor,category,amount,notes,receipt_id,created_at\n" :=
  (csv_row_format r7 5 rfl).1

/-- C8 (code bug).  Python's `float()` accepts `"nan"`; the add route
therefore inserts a record whose amount is NaN — a non-finite amount
reaches the store, although a truly non-parsing amount such as
`"abc"` is rejected with no write, as the claim demands. -/
theorem add_accepts_nan :
    pyFloat? "nan" = some PyVal.nan
    ∧ add st8 0 f8nan
        = .ok ⟨[⟨0, 0, "V", some "C", PyVal.nan, "", none, 0, 0⟩], ⟨0, []⟩, 1⟩
    ∧ add st8 0 f8abc = .error .invalidAmount := by decide

/-- C9, counterexample.  Adding an expense with a `.exe` receipt
upload does not fail: nothing is stored in GridFS, but the expense
record itself is inserted (with no receipt reference) and the route
reports success — contradicting the claim that the add is rejected
before any store write. -/
theorem add_bad_extension_counterexample :
    allowed_file "evil.exe" = false
    ∧ (add st9 0 f9).map
        (fun st => (st.expenses.map (fun r => (r.id, r.vendor, r.receipt_id)), st.receipts))
      = .ok ([(0, "V", none)], ⟨0, []⟩) := by decide

/-- C9, amended.  When the uploaded receipt's extension is not
allowed, no binary object is put into GridFS, but the add succeeds
anyway: the upload is silently ignored and the expense record is
inserted with no receipt reference. -/
theorem add_bad_extension_ignored (st : AppState) (now : Int) (f : AddForm) (u : Upload)
    (hrec : f.receipt = some u)
    (hname : u.filename ≠ "")
    (hext : allowed_file u.filename = false)
    (hamt : (pyFloat? (pyStrip f.amount)).isSome = true) :
    (add st now f).map (fun st1 => st1.receipts) = .ok st.receipts
    ∧ (add st now f).map (fun st1 => st1.expenses.map (fun r => (r.id, r.receipt_id)))
        = .ok (st.expenses.map (fun r => (r.id, r.receipt_id)) ++ [(st.nextOid, none)]) := by
  cases hv : pyFloat? (pyStrip f.amount) with
  | none => rw [hv] at hamt; simp at hamt
  | some v =>
    constructor <;>
      simp [add, hv, hrec, _save_receipt, hname, hext, Except.map]

/-- C9, witness for the amended theorem. -/
theorem add_bad_extension_ignored_witness :
    (add st9 0 f9).map (fun st1 => st1.receipts) = .ok st9.receipts
    ∧ (add st9 0 f9).map (fun st1 => st1.expenses.map (fun r => (r.id, r.receipt_id)))
        = .ok (st9.expenses.map (fun r => (r.id, r.receipt_id)) ++ [(st9.nextOid, none)]) :=
  add_bad_extension_ignored st9 0 f9 ⟨"evil.exe"⟩ rfl (by decide) (by decide) (by decide)

/-- C10.  On edit, a replacement receipt whose extension is not
allowed still mutates state: the edit succeeds, the record's old
receipt binary is deleted from GridFS, and the record's receipt
reference becomes absent — the record loses its receipt even though
the new upload was never stored. -/
theorem edit_bad_extension_loses_receipt (st : AppState) (now : Int) (oid old : Nat)
    (doc : Rec) (f : EditForm) (u : Upload)
    (hfind : st.expenses.find? (fun r => r.id == oid) = some doc)
    (hold : doc.receipt_id = some old)
    (hrec : f.receipt = some u)
    (hname : u.filename ≠ "")
    (hext : allowed_file u.filename = false)
    (hamt1 : f.amount ≠ "")
    (hamt2 : (pyFloat? (pyStrip f.amount)).isSome = true) :
    (edit st now oid f).map (fun st1 => st1.receipts)
      = .ok { st.receipts with stored := st.receipts.stored.erase old }
    ∧ (edit st now oid f).map (fun st1 => st1.expenses.map (fun r => (r.id, r.receipt_id)))
      = .ok (st.expenses.map (fun r => (r.id, if r.id = oid then none else r.receipt_id))) := by
  have hdocid : doc.id = oid := by
    have := List.find?_some hfind
    simpa using this
  cases hv : pyFloat? (pyStrip f.amount) with
  | none => rw [hv] at hamt2; simp at hamt2
  | some v =>
    have hsave : _save_receipt st.receipts (some u) = (none, st.receipts) := by
      simp [_save_receipt, hname, hext]
    constructor
    · simp [edit, hfind, hamt1, hv, hrec, hsave, _delete_receipt, hold, Except.map, hname]
    · simp [edit, hfind, hamt1, hv, hrec, hsave, _delete_receipt, hold, Except.map,
        List.map_map, hname]
      intro a ha
      by_cases hid : a.id = oid <;> simp [hid, hdocid, hname]

/-- C10, witness at a concrete state: the stored receipt 7 is deleted
and the record's reference is cleared. -/
theorem edit_bad_extension_loses_receipt_witness :
    (edit st10 1 3 f10).map (fun st1 => st1.receipts)
      = .ok { st10.receipts with stored := st10.receipts.stored.erase 7 }
    ∧ (edit st10 1 3 f10).map (fun st1 => st1.expenses.map (fun r => (r.id, r.receipt_id)))
      = .ok (st10.expenses.map (fun r => (r.id, if r.id = 3 then none else r.receipt_id))) :=
  edit_bad_extension_loses_receipt st10 1 3 7 ⟨3, 0, "V", some "C", .num 5, "", some 7, 0, 0⟩
    f10 ⟨"bad.exe"⟩ (by decide) rfl rfl (by decide) (by decide) (by decide) (by decide)

end Bookkeeping
